import Mathlib

/-!
Shallow embedding of the agent memory and conversation-response subsystem of
the AgenticWorldGame repository (src/js/ai/AgentMemory.js, src/js/agents/Tiberius.js,
src/js/world/World.js), together with theorems checking the specification's claims.

JavaScript `Map` objects are modelled as association lists in insertion order
with the JS semantics: `set` overwrites in place when the key is present and
appends otherwise, `get` returns the first (unique) binding, `delete` removes
the binding.  JS numbers are modelled as rationals (`ℚ`) where fractional
values occur and as `Nat` for timestamps and counters.  `Date.now()` and
`Math.random()` results are passed in as explicit parameters.
-/

set_option allowUnsafeReducibility true in
attribute [semireducible] Rat.mul Rat.inv Rat.add Rat.sub Rat.neg Rat.div Rat.blt

/-- JS `Map` model: association list in insertion order. -/
abbrev JSMap (α : Type) := List (String × α)

/-- `Map.prototype.get`. -/
def jsMapGet {α : Type} : JSMap α → String → Option α
  | [], _ => none
  | p :: rest, k => if p.1 = k then some p.2 else jsMapGet rest k

/-- `Map.prototype.has`. -/
def jsMapHas {α : Type} : JSMap α → String → Bool
  | [], _ => false
  | p :: rest, k => p.1 = k || jsMapHas rest k

/-- `Map.prototype.set`: overwrite in place when present, append otherwise. -/
def jsMapSet {α : Type} (m : JSMap α) (k : String) (v : α) : JSMap α :=
  if jsMapHas m k then m.map (fun p => if p.1 = k then (k, v) else p) else m ++ [(k, v)]

/-- `Map.prototype.delete` (maps have unique keys, so filtering is deletion). -/
def jsMapDelete {α : Type} (m : JSMap α) (k : String) : JSMap α :=
  m.filter (fun p => p.1 ≠ k)

/-- `String.prototype.includes`: substring containment. -/
def jsIncludes (s sub : String) : Bool :=
  (List.range (s.length + 1)).any (fun i => sub.toList.isPrefixOf (s.toList.drop i))

/-- `String.prototype.toLowerCase` (ASCII, which covers every string in the source). -/
def jsToLower (s : String) : String := ⟨s.data.map Char.toLower⟩

/-- JS `x || default` for an optional string, with `''` falsy. -/
def jsOrStr (x : Option String) (d : String) : String :=
  match x with
  | some v => if v = "" then d else v
  | none => d

/-- JS `x || default` for an optional number, with `0` falsy. -/
def jsOrNat (x : Option Nat) (d : Nat) : Nat :=
  match x with
  | some v => if v = 0 then d else v
  | none => d

/-- JS `x || default` for an optional rational, with `0` falsy. -/
def jsOrRat (x : Option ℚ) (d : ℚ) : ℚ :=
  match x with
  | some v => if v = 0 then d else v
  | none => d

/-- `Set.prototype.add` on a Set modelled as an insertion-ordered duplicate-free list. -/
def jsSetAdd (s : List String) (x : String) : List String :=
  if x ∈ s then s else s ++ [x]

/-! ## Data model (AgentMemory.js) -/

/-- A conversation entry appended by `addConversation`. -/
structure Conversation where
  id : String
  participant : String
  participantId : String
  message : String
  type : String
  timestamp : Nat
  importance : Nat
  sentiment : ℚ
  topics : List String
deriving DecidableEq

/-- The `data` payload of a memory record: either a stored conversation object
(the only structured payload `AgentMemory` itself ever stores) or an opaque value. -/
inductive MemData where
  | conv (c : Conversation)
  | raw (s : String)
deriving DecidableEq

/-- A memory record as built by `store()`. -/
structure Memory where
  id : String
  key : String
  data : MemData
  category : String
  importance : Nat
  timestamp : Nat
  accessCount : Nat
  lastAccessed : Nat
  strength : ℚ
  emotionalWeight : ℚ
  connections : List String
deriving DecidableEq

/-- A relationship record, keyed by participant name. -/
structure Relationship where
  name : String
  id : String
  trustLevel : ℚ
  familiarity : ℚ
  lastInteraction : Nat
  totalInteractions : Nat
  sentimentHistory : List ℚ
  sharedTopics : List String
  notes : List String
deriving DecidableEq

/-- The whole `AgentMemory` state. -/
structure AgentMemory where
  maxMemories : Nat
  maxConversations : Nat
  decayRate : ℚ
  shortTermMemory : JSMap Memory
  longTermMemory : JSMap Memory
  conversations : List Conversation
  relationships : JSMap Relationship
  facts : JSMap String
  lastCleanupTime : Nat
  cleanupInterval : Nat
deriving DecidableEq

/-- Constructor `config` argument; absent fields are `none`. -/
structure MemoryConfig where
  maxMemories : Option Nat
  maxConversations : Option Nat
  decayRate : Option ℚ

/-- The `AgentMemory` constructor (`now` stands for `Date.now()`). -/
def AgentMemory.init (config : MemoryConfig) (now : Nat) : AgentMemory where
  maxMemories := jsOrNat config.maxMemories 200
  maxConversations := jsOrNat config.maxConversations 50
  decayRate := jsOrRat config.decayRate (1/10)
  shortTermMemory := []
  longTermMemory := []
  conversations := []
  relationships := []
  facts := []
  lastCleanupTime := now
  cleanupInterval := 60000

/-- Importance level `TRIVIAL`. -/
def importanceTRIVIAL : Nat := 1
/-- Importance level `LOW`. -/
def importanceLOW : Nat := 2
/-- Importance level `NORMAL`. -/
def importanceNORMAL : Nat := 3
/-- Importance level `HIGH`. -/
def importanceHIGH : Nat := 4
/-- Importance level `CRITICAL`. -/
def importanceCRITICAL : Nat := 5

/-- Category `conversation`. -/
def categoryCONVERSATION : String := "conversation"
/-- Category `fact`. -/
def categoryFACT : String := "fact"

/-! ## Memory analysis helpers (AgentMemory.js lines 273-354) -/

/-- The `importantWords` list of `calculateMessageImportance`. -/
def importantWords : List String :=
  ["secret", "important", "help", "problem", "quest", "treasure"]

/-- `calculateMessageImportance(message)`. -/
def calculateMessageImportance (message : String) : Nat :=
  let i0 := importanceNORMAL
  let i1 := if message.length > 100 then i0 + 1 else i0
  let i2 := if message.length > 200 then i1 + 1 else i1
  let messageLower := jsToLower message
  let i3 := importantWords.foldl
    (fun acc word => if jsIncludes messageLower word then acc + 1 else acc) i2
  let i4 := if jsIncludes message "?" then i3 + 1 else i3
  min importanceCRITICAL i4

/-- The positive word list of `analyzeSentiment`. -/
def positiveWords : List String :=
  ["good", "great", "awesome", "wonderful", "excellent", "love", "like", "happy",
   "pleased", "thank"]

/-- The negative word list of `analyzeSentiment`. -/
def negativeWords : List String :=
  ["bad", "terrible", "awful", "horrible", "hate", "dislike", "sad", "angry",
   "upset", "disappointed"]

/-- `analyzeSentiment(message)`. -/
def analyzeSentiment (message : String) : ℚ :=
  let messageLower := jsToLower message
  let s1 := positiveWords.foldl
    (fun acc word => if jsIncludes messageLower word then acc + 1/10 else acc) 0
  let s2 := negativeWords.foldl
    (fun acc word => if jsIncludes messageLower word then acc - 1/10 else acc) s1
  max (-1) (min 1 s2)

/-- The `topicKeywords` table of `extractTopics`, in source order. -/
def topicKeywords : List (String × List String) :=
  [("history", ["history", "past", "ancient", "old", "before"]),
   ("magic", ["magic", "spell", "enchant", "wizard", "mystical"]),
   ("trade", ["trade", "sell", "buy", "merchant", "gold", "coin"]),
   ("invention", ["invent", "create", "build", "machine", "gadget"]),
   ("books", ["book", "read", "library", "tome", "scroll"]),
   ("weather", ["weather", "rain", "sun", "storm", "cloud"]),
   ("people", ["person", "people", "friend", "family", "stranger"])]

/-- `extractTopics(message)`: the topic Set in insertion order (`Array.from`). -/
def extractTopics (message : String) : List String :=
  let messageLower := jsToLower message
  topicKeywords.foldl
    (fun acc entry => entry.2.foldl
      (fun acc2 keyword => if jsIncludes messageLower keyword then jsSetAdd acc2 entry.1 else acc2)
      acc)
    []

/-- `calculateAverageSentiment(sentiments)`. -/
def calculateAverageSentiment (sentiments : List ℚ) : ℚ :=
  if sentiments.isEmpty then 0 else sentiments.sum / sentiments.length

/-- Milliseconds in one week, the recency window of `calculateMemoryScore`. -/
def weekMs : Nat := 7 * 24 * 60 * 60 * 1000

/-- `calculateMemoryScore(memory)`; `now` stands for `Date.now()`. -/
def calculateMemoryScore (now : Nat) (memory : Memory) : ℚ :=
  let age : ℚ := (now : ℚ) - (memory.timestamp : ℚ)
  let recency := max 0 (1 - age / (weekMs : ℚ))
  let accessBonus := min 1 ((memory.accessCount : ℚ) / 10)
  (memory.importance : ℚ) * memory.strength * (recency + accessBonus)

/-! ## Memory maintenance (AgentMemory.js lines 356-414) -/

/-- The score-ascending comparison used by `cleanup`'s eviction sort. -/
def evictScoreLe (now : Nat) (a b : String × Memory) : Prop :=
  calculateMemoryScore now a.2 ≤ calculateMemoryScore now b.2

instance (now : Nat) : DecidableRel (evictScoreLe now) := fun a b =>
  inferInstanceAs (Decidable (calculateMemoryScore now a.2 ≤ calculateMemoryScore now b.2))

instance (now : Nat) : IsTotal (String × Memory) (evictScoreLe now) :=
  ⟨fun a b => le_total (calculateMemoryScore now a.2) (calculateMemoryScore now b.2)⟩

instance (now : Nat) : IsTrans (String × Memory) (evictScoreLe now) :=
  ⟨fun _ _ _ h1 h2 => le_trans h1 h2⟩

/-- `cleanup()`: drop short-term records with `strength < 0.1`, then, if the
short-term tier still exceeds `maxMemories`, delete the lowest-scoring records
(ascending sort by score, delete the first `size - maxMemories`). -/
def AgentMemory.cleanup (s : AgentMemory) (now : Nat) : AgentMemory :=
  let afterWeak := s.shortTermMemory.filter (fun p => ¬ (p.2.strength < 1/10))
  if afterWeak.length > s.maxMemories then
    let sorted := afterWeak.insertionSort (evictScoreLe now)
    let toDelete := sorted.take (afterWeak.length - s.maxMemories)
    { s with shortTermMemory := toDelete.foldl (fun m q => jsMapDelete m q.1) afterWeak }
  else
    { s with shortTermMemory := afterWeak }

/-- The records `cleanup` deletes in its capacity-eviction pass. -/
def capacityEvicted (s : AgentMemory) (now : Nat) : JSMap Memory :=
  let afterWeak := s.shortTermMemory.filter (fun p => ¬ (p.2.strength < 1/10))
  if afterWeak.length > s.maxMemories then
    (afterWeak.insertionSort (evictScoreLe now)).take (afterWeak.length - s.maxMemories)
  else []

/-- `maybeCleanup()`. -/
def AgentMemory.maybeCleanup (s : AgentMemory) (now : Nat) : AgentMemory :=
  if now - s.lastCleanupTime > s.cleanupInterval then
    { s.cleanup now with lastCleanupTime := now }
  else s

/-- Promotion test of `update()`: `accessCount > 3 && importance >= NORMAL`. -/
def promotes (m : Memory) : Bool :=
  m.accessCount > 3 && m.importance ≥ importanceNORMAL

/-- The strength decay applied by `update()` to one short-term record. -/
def decayMemory (decayAmount : ℚ) (m : Memory) : Memory :=
  { m with strength := max 0 (m.strength - decayAmount) }

/-- `update(deltaTime)`: decay every short-term record, move records with
`accessCount > 3 && importance >= NORMAL` to the long-term tier (the `forEach`
sets `longTermMemory[memory.key]` and deletes `shortTermMemory[memory.key]`;
for stores built through this class each entry's map key equals its record's
`key` field), then `maybeCleanup()`. -/
def AgentMemory.update (s : AgentMemory) (deltaTime : ℚ) (now : Nat) : AgentMemory :=
  let decayAmount := s.decayRate * (deltaTime / 60)
  let decayed := s.shortTermMemory.map (fun q => (q.1, decayMemory decayAmount q.2))
  let promoted := decayed.filter (fun q => promotes q.2)
  let remaining := decayed.filter (fun q => ¬ promotes q.2)
  let long := promoted.foldl (fun m q => jsMapSet m q.2.key q.2) s.longTermMemory
  AgentMemory.maybeCleanup
    { s with shortTermMemory := remaining, longTermMemory := long } now

/-! ## Core memory operations (AgentMemory.js lines 45-107) -/

/-- `store(key, data, importance, category)`; `mid` stands for the generated
memory id and `now` for `Date.now()`.  Returns the updated store (the source
returns the id, which is the `mid` argument). -/
def AgentMemory.storeMem (s : AgentMemory) (key : String) (data : MemData)
    (importance : Nat) (category : Option String) (mid : String) (now : Nat) :
    AgentMemory :=
  let memory : Memory :=
    { id := mid, key := key, data := data,
      category := jsOrStr category categoryFACT,
      importance := importance, timestamp := now, accessCount := 0,
      lastAccessed := now, strength := 1, emotionalWeight := 0, connections := [] }
  let s :=
    if importance ≥ importanceHIGH then
      { s with longTermMemory := jsMapSet s.longTermMemory key memory }
    else
      { s with shortTermMemory := jsMapSet s.shortTermMemory key memory }
  s.maybeCleanup now

/-- `retrieve(key, strengthenMemory)`: returns the `data` payload and the
updated store (the source mutates the matched record in place). -/
def AgentMemory.retrieve (s : AgentMemory) (key : String)
    (strengthenMemory : Bool) (now : Nat) : Option MemData × AgentMemory :=
  match jsMapGet s.shortTermMemory key with
  | some m =>
    if strengthenMemory then
      let m' := { m with accessCount := m.accessCount + 1, lastAccessed := now,
                         strength := min 1 (m.strength + 1/10) }
      (some m'.data, { s with shortTermMemory := jsMapSet s.shortTermMemory key m' })
    else
      (some m.data, s)
  | none =>
    match jsMapGet s.longTermMemory key with
    | some m =>
      if strengthenMemory then
        let m' := { m with accessCount := m.accessCount + 1, lastAccessed := now,
                           strength := min 1 (m.strength + 1/10) }
        (some m'.data, { s with longTermMemory := jsMapSet s.longTermMemory key m' })
      else
        (some m.data, s)
    | none => (none, s)

/-! ## Relationship management and conversations (AgentMemory.js lines 109-202) -/

/-- The `participant` argument of `addConversation`. -/
structure Participant where
  name : String
  id : String
deriving DecidableEq

/-- `participant.name || 'Unknown'`. -/
def participantKey (p : Participant) : String := jsOrStr (some p.name) "Unknown"

/-- The fresh relationship record created on first contact. -/
def freshRelationship (participantName participantId : String) (now : Nat) :
    Relationship where
  name := participantName
  id := participantId
  trustLevel := 50
  familiarity := 0
  lastInteraction := now
  totalInteractions := 0
  sentimentHistory := []
  sharedTopics := []
  notes := []

/-- The metric-update block of `updateRelationship` applied to one
relationship record (the source mutates the record in place). -/
def relationshipAfterConversation (rel : Relationship)
    (conversation : Conversation) : Relationship :=
  let rel := { rel with
    totalInteractions := rel.totalInteractions + 1,
    lastInteraction := conversation.timestamp,
    familiarity := min 100 (rel.familiarity + 1) }
  let hist := rel.sentimentHistory ++ [conversation.sentiment]
  let hist := if hist.length > 20 then hist.drop 1 else hist
  let rel := { rel with sentimentHistory := hist }
  let avgSentiment := calculateAverageSentiment hist
  let rel :=
    if avgSentiment > 1/5 then
      { rel with trustLevel := min 100 (rel.trustLevel + 2) }
    else if avgSentiment < -(1/5) then
      { rel with trustLevel := max 0 (rel.trustLevel - 2) }
    else rel
  { rel with sharedTopics := conversation.topics.foldl jsSetAdd rel.sharedTopics }

/-- `updateRelationship(participant, conversation)`. -/
def AgentMemory.updateRelationship (s : AgentMemory) (p : Participant)
    (conversation : Conversation) (now : Nat) : AgentMemory :=
  let participantName := participantKey p
  let rels0 :=
    if jsMapHas s.relationships participantName then s.relationships
    else jsMapSet s.relationships participantName
      (freshRelationship participantName p.id now)
  let rel := (jsMapGet rels0 participantName).getD
    (freshRelationship participantName p.id now)
  { s with relationships :=
      jsMapSet rels0 participantName (relationshipAfterConversation rel conversation) }

/-- `addConversation(participant, message, type)`; `cid` is the generated
conversation id, `mid` the id generated for the derived memory record, and
`now` stands for `Date.now()`. -/
def AgentMemory.addConversation (s : AgentMemory) (p : Participant)
    (message : String) (type : String) (cid mid : String) (now : Nat) :
    AgentMemory :=
  let conversation : Conversation :=
    { id := cid, participant := participantKey p, participantId := p.id,
      message := message, type := type, timestamp := now,
      importance := calculateMessageImportance message,
      sentiment := analyzeSentiment message,
      topics := extractTopics message }
  let convs := s.conversations ++ [conversation]
  let convs := if convs.length > s.maxConversations then convs.drop 1 else convs
  let s := { s with conversations := convs }
  let s := s.updateRelationship p conversation now
  if conversation.importance ≥ importanceNORMAL then
    s.storeMem ("conversation_" ++ conversation.id) (MemData.conv conversation)
      conversation.importance (some categoryCONVERSATION) mid now
  else s

/-! ## Serialization (AgentMemory.js lines 431-475) -/

/-- The structural snapshot produced by `serialize()`; fields may be absent on
foreign data handed to `deserialize()`. -/
structure Snapshot where
  shortTermMemory : Option (JSMap Memory)
  longTermMemory : Option (JSMap Memory)
  conversations : Option (List Conversation)
  relationships : Option (JSMap Relationship)
  facts : Option (JSMap String)
  configMaxMemories : Option Nat
  configMaxConversations : Option Nat
  configDecayRate : Option ℚ
deriving DecidableEq

/-- `serialize()`. -/
def AgentMemory.serialize (s : AgentMemory) : Snapshot where
  shortTermMemory := some s.shortTermMemory
  longTermMemory := some s.longTermMemory
  conversations := some s.conversations
  relationships := some s.relationships
  facts := some s.facts
  configMaxMemories := some s.maxMemories
  configMaxConversations := some s.maxConversations
  configDecayRate := some s.decayRate

/-- `new Map(entries)`: the Map constructor sets each entry in order. -/
def newMapFromEntries {α : Type} (entries : JSMap α) : JSMap α :=
  entries.foldl (fun m q => jsMapSet m q.1 q.2) []

/-- `deserialize(data)`: each present field replaces the current one (a `Map`
field is rebuilt through the Map constructor); config numbers fall back to the
current value when falsy. -/
def AgentMemory.deserialize (s : AgentMemory) (data : Snapshot) : AgentMemory :=
  let s := match data.shortTermMemory with
    | some l => { s with shortTermMemory := newMapFromEntries l }
    | none => s
  let s := match data.longTermMemory with
    | some l => { s with longTermMemory := newMapFromEntries l }
    | none => s
  let s := match data.conversations with
    | some l => { s with conversations := l }
    | none => s
  let s := match data.relationships with
    | some l => { s with relationships := newMapFromEntries l }
    | none => s
  let s := match data.facts with
    | some l => { s with facts := newMapFromEntries l }
    | none => s
  { s with
    maxMemories := jsOrNat data.configMaxMemories s.maxMemories,
    maxConversations := jsOrNat data.configMaxConversations s.maxConversations,
    decayRate := jsOrRat data.configDecayRate s.decayRate }

/-! ## Tiberius (Tiberius.js lines 152-283) -/

/-- Tiberius's `questProgress` object. -/
structure QuestProgress where
  missingBookClues : Int
  playerTrustworthiness : Int
  sensitiveInfoRevealed : Bool
deriving DecidableEq

/-- The Tiberius state touched by `analyzePlayerMessage`/`adjustTrust`. -/
structure TiberiusState where
  trustLevel : ℚ
  trustThreshold : ℚ
  currentMood : String
  questProgress : QuestProgress
deriving DecidableEq

/-- `adjustTrust(amount)`: clamp to [0,100], then update the mood. -/
def adjustTrust (st : TiberiusState) (amount : ℚ) : TiberiusState :=
  let t := max 0 (min 100 (st.trustLevel + amount))
  let mood := if t > 70 then "friendly" else if t < 30 then "suspicious" else "neutral"
  { st with trustLevel := t, currentMood := mood }

/-- `analyzePlayerMessage(message, sender)`.  The third `if` keeps the source's
operator precedence: `a || b && c` parses as `a || (b && c)`. -/
def analyzePlayerMessage (st : TiberiusState) (message : String) : TiberiusState :=
  let messageLower := jsToLower message
  let st :=
    if jsIncludes messageLower "book" || jsIncludes messageLower "history" ||
       jsIncludes messageLower "knowledge" || jsIncludes messageLower "learn" then
      let st := adjustTrust st 5
      { st with questProgress :=
          { st.questProgress with
            playerTrustworthiness := st.questProgress.playerTrustworthiness + 1 } }
    else st
  let st :=
    if jsIncludes messageLower "please" || jsIncludes messageLower "thank" ||
       jsIncludes messageLower "respect" then
      adjustTrust st 3
    else st
  let st :=
    if jsIncludes messageLower "tell me everything" ||
       (jsIncludes messageLower "secret" && decide (st.trustLevel < st.trustThreshold)) then
      adjustTrust st (-5)
    else st
  let st :=
    if jsIncludes messageLower "missing" || jsIncludes messageLower "chronicle" ||
       jsIncludes messageLower "volume" then
      { st with questProgress :=
          { st.questProgress with
            missingBookClues := st.questProgress.missingBookClues + 1 } }
    else st
  st

/-! ## AIAgent response engine (World.js lines 780-1031) -/

/-- Truthiness of the personality traits `generatePersonalityResponse` and the
busy roll read. -/
structure AIPersonality where
  scholarly : Bool
  friendly : Bool
  suspicious : Bool
  helpful : Bool
  busy : Bool
deriving DecidableEq

/-- The AIAgent configuration relevant to response generation; `apiEndpoint`
and `apiKey` are `none` when unset (`config.x || null`). -/
structure AIAgent where
  name : String
  personality : AIPersonality
  apiEndpoint : Option String
  apiKey : Option String
deriving DecidableEq

/-- `fallbackResponses.greeting`. -/
def greetingPool (name : String) : List String :=
  ["Hello there! I\x27m " ++ name ++ ".",
   "Greetings, traveler.",
   "Well, hello! What brings you here?"]

/-- `fallbackResponses.confused`. -/
def confusedPool : List String :=
  ["I\x27m not sure I understand what you mean.",
   "Could you rephrase that?",
   "That\x27s an interesting way to put it...",
   "Hmm, I\x27m not quite following."]

/-- `fallbackResponses.goodbye`. -/
def goodbyePool : List String :=
  ["Farewell for now!",
   "Until we meet again.",
   "Safe travels!",
   "It was good talking with you."]

/-- `fallbackResponses.busy`. -/
def busyPool : List String :=
  ["I\x27m rather busy at the moment.",
   "Can we talk later? I have things to do.",
   "I\x27m in the middle of something important."]

/-- `fallbackResponses.default`. -/
def defaultPool : List String :=
  ["That\x27s interesting.",
   "I see.",
   "Tell me more about that.",
   "What do you think about that?"]

/-- The scholarly pool of `generatePersonalityResponse`. -/
def scholarlyPool : List String :=
  ["That\x27s a fascinating topic. In my studies, I\x27ve found...",
   "From what I know about such matters...",
   "An interesting question indeed."]

/-- The friendly pool of `generatePersonalityResponse`. -/
def friendlyPool : List String :=
  ["I\x27m always happy to chat about that!",
   "You seem like someone I can trust.",
   "It\x27s wonderful to have someone to talk to."]

/-- The suspicious pool of `generatePersonalityResponse`. -/
def suspiciousPool : List String :=
  ["Why do you want to know about that?",
   "I\x27m not sure I should share that information.",
   "That\x27s a rather personal question..."]

/-- The helpful pool of `generatePersonalityResponse`. -/
def helpfulPool : List String :=
  ["Let me see if I can help you with that.",
   "I\x27d be glad to assist you.",
   "Perhaps I can offer some advice."]

/-- `responses[Math.floor(Math.random() * responses.length)]`, with the random
draw supplied as an arbitrary index `choice` reduced modulo the length. -/
def jsPickIndexed (l : List String) (choice : Nat) : String :=
  l.getD (choice % l.length) ""

/-- `getRandomResponse(category)`: pick from a non-empty pool, otherwise the
hard-coded default line. -/
def getRandomResponse (l : List String) (choice : Nat) : String :=
  if l.length > 0 then jsPickIndexed l choice
  else "I\x27m not sure how to respond to that."

/-- `isGreeting(message)` (the argument is already lower-cased). -/
def isGreeting (messageLower : String) : Bool :=
  ["hello", "hi", "hey", "greetings", "good morning", "good day"].any
    (fun g => jsIncludes messageLower g)

/-- `isGoodbye(message)`. -/
def isGoodbye (messageLower : String) : Bool :=
  ["goodbye", "bye", "farewell", "see you", "later", "exit"].any
    (fun g => jsIncludes messageLower g)

/-- `isConfused(message)`: shorter than 3 characters or no ASCII letters
(`/^[^a-zA-Z]*$/`). -/
def isConfused (messageLower : String) : Bool :=
  messageLower.length < 3 || messageLower.data.all (fun c => ¬ c.isAlpha)

/-- `generatePersonalityResponse(message, context)`. -/
def generatePersonalityResponse (a : AIAgent) (choice : Nat) : String :=
  let responses :=
    (if a.personality.scholarly then scholarlyPool else []) ++
    (if a.personality.friendly then friendlyPool else []) ++
    (if a.personality.suspicious then suspiciousPool else []) ++
    (if a.personality.helpful then helpfulPool else [])
  let responses := if responses.length = 0 then responses ++ defaultPool else responses
  jsPickIndexed responses choice

/-- `generateFallbackResponse(message, context)`; `busyRoll` stands for
`Math.random() < 0.1` and `choice` for the pool-index draw. -/
def generateFallbackResponse (a : AIAgent) (message : String)
    (busyRoll : Bool) (choice : Nat) : String :=
  let messageLower := jsToLower message
  if isGreeting messageLower then getRandomResponse (greetingPool a.name) choice
  else if isGoodbye messageLower then getRandomResponse goodbyePool choice
  else if isConfused messageLower then getRandomResponse confusedPool choice
  else if a.personality.busy && busyRoll then getRandomResponse busyPool choice
  else generatePersonalityResponse a choice

/-- `generateResponse(message, context)`: with both endpoint and key configured
try the external call (its outcome supplied as `apiOutcome`; any rejection is
caught), otherwise or on failure take the fallback path. -/
def generateResponse (a : AIAgent) (message : String)
    (apiOutcome : Except String String) (busyRoll : Bool) (choice : Nat) : String :=
  match a.apiEndpoint, a.apiKey with
  | some _, some _ =>
    match apiOutcome with
    | Except.ok reply => reply
    | Except.error _ => generateFallbackResponse a message busyRoll choice
  | _, _ => generateFallbackResponse a message busyRoll choice

/-! ## Lemmas about the JS Map model -/

theorem jsMapGet_eq_some_mem {α : Type} {m : JSMap α} {k : String} {v : α}
    (h : jsMapGet m k = some v) : (k, v) ∈ m := by
  induction m with
  | nil => simp [jsMapGet] at h
  | cons q rest ih =>
    rw [jsMapGet] at h
    split at h
    case isTrue hq =>
      rcases q with ⟨a, b⟩
      obtain rfl : a = k := hq
      obtain rfl : b = v := by injection h
      exact List.mem_cons_self _ _
    case isFalse hq =>
      exact List.mem_cons_of_mem _ (ih h)

theorem jsMapGet_eq_none_iff {α : Type} {m : JSMap α} {k : String} :
    jsMapGet m k = none ↔ ∀ p ∈ m, p.1 ≠ k := by
  induction m with
  | nil => simp [jsMapGet]
  | cons q rest ih =>
    rw [jsMapGet]
    by_cases hq : q.1 = k
    · rw [if_pos hq]
      constructor
      · intro h
        exact absurd h (by simp)
      · intro h
        exact absurd hq (h q (List.mem_cons_self q rest))
    · rw [if_neg hq, ih]
      constructor
      · intro h p hp
        rcases List.mem_cons.mp hp with rfl | hp'
        · exact hq
        · exact h p hp'
      · intro h p hp
        exact h p (List.mem_cons_of_mem q hp)

theorem jsMapHas_eq_false_iff {α : Type} {m : JSMap α} {k : String} :
    jsMapHas m k = false ↔ ∀ p ∈ m, p.1 ≠ k := by
  induction m with
  | nil => simp [jsMapHas]
  | cons q rest ih =>
    rw [jsMapHas]
    by_cases hq : q.1 = k <;> simp [hq, ih]

theorem jsMapHas_eq_true_iff {α : Type} {m : JSMap α} {k : String} :
    jsMapHas m k = true ↔ ∃ p ∈ m, p.1 = k := by
  induction m with
  | nil => simp [jsMapHas]
  | cons q rest ih =>
    rw [jsMapHas]
    by_cases hq : q.1 = k <;> simp [hq, ih]

theorem mem_jsMapSet {α : Type} {m : JSMap α} {k : String} {v : α} {p : String × α}
    (h : p ∈ jsMapSet m k v) : p ∈ m ∨ p = (k, v) := by
  unfold jsMapSet at h
  split at h
  · rcases List.mem_map.mp h with ⟨q, hq, hpq⟩
    by_cases hk : q.1 = k
    · rw [if_pos hk] at hpq
      exact Or.inr hpq.symm
    · rw [if_neg hk] at hpq
      exact Or.inl (hpq ▸ hq)
  · rcases List.mem_append.mp h with h1 | h1
    · exact Or.inl h1
    · exact Or.inr (by simpa using h1)

theorem jsMapGet_append_of_none {α : Type} {a : JSMap α} {k : String}
    (b : JSMap α) (h : jsMapGet a k = none) :
    jsMapGet (a ++ b) k = jsMapGet b k := by
  induction a with
  | nil => simp
  | cons q rest ih =>
    rw [jsMapGet] at h
    rw [List.cons_append, jsMapGet]
    split at h
    · exact absurd h (by simp)
    case isFalse hq =>
      rw [if_neg hq]
      exact ih h

theorem jsMapGet_append_of_some {α : Type} {a : JSMap α} {k : String} {w : α}
    (b : JSMap α) (h : jsMapGet a k = some w) :
    jsMapGet (a ++ b) k = some w := by
  induction a with
  | nil => simp [jsMapGet] at h
  | cons q rest ih =>
    rw [jsMapGet] at h
    rw [List.cons_append, jsMapGet]
    split at h
    case isTrue hq => rw [if_pos hq]; exact h
    case isFalse hq => rw [if_neg hq]; exact ih h

theorem jsMapGet_map_set_self {α : Type} (m : JSMap α) (k : String) (v : α)
    (h : jsMapHas m k = true) :
    jsMapGet (m.map (fun p => if p.1 = k then (k, v) else p)) k = some v := by
  induction m with
  | nil => simp [jsMapHas] at h
  | cons q rest ih =>
    rw [jsMapHas] at h
    by_cases hq : q.1 = k
    · simp [jsMapGet, hq]
    · simp [hq] at h
      simpa [jsMapGet, hq] using ih h

theorem jsMapGet_set_self {α : Type} (m : JSMap α) (k : String) (v : α) :
    jsMapGet (jsMapSet m k v) k = some v := by
  unfold jsMapSet
  split
  case isTrue h => exact jsMapGet_map_set_self m k v h
  case isFalse h =>
    have hn : jsMapGet m k = none :=
      jsMapGet_eq_none_iff.mpr (jsMapHas_eq_false_iff.mp (by simpa using h))
    rw [jsMapGet_append_of_none _ hn]
    simp [jsMapGet]

theorem jsMapGet_map_set_ne {α : Type} (m : JSMap α) (k k' : String) (v : α)
    (h : k' ≠ k) :
    jsMapGet (m.map (fun p => if p.1 = k then (k, v) else p)) k' = jsMapGet m k' := by
  induction m with
  | nil => simp [jsMapGet]
  | cons q rest ih =>
    by_cases hq : q.1 = k
    · have hq' : ¬ q.1 = k' := fun hc => h (hq ▸ hc).symm
      simp only [List.map_cons, if_pos hq, jsMapGet, if_neg (Ne.symm h), if_neg hq']
      exact ih
    · by_cases hq' : q.1 = k'
      · simp only [List.map_cons, if_neg hq, jsMapGet, if_pos hq']
      · simp only [List.map_cons, if_neg hq, jsMapGet, if_neg hq']
        exact ih

theorem jsMapGet_set_ne {α : Type} (m : JSMap α) (k k' : String) (v : α)
    (h : k' ≠ k) : jsMapGet (jsMapSet m k v) k' = jsMapGet m k' := by
  unfold jsMapSet
  split
  · exact jsMapGet_map_set_ne m k k' v h
  · cases hg : jsMapGet m k' with
    | some w => exact jsMapGet_append_of_some _ hg
    | none =>
      have h2 : jsMapGet ([(k, v)] : JSMap α) k' = none := by
        simp [jsMapGet, Ne.symm h]
      exact (jsMapGet_append_of_none _ hg).trans h2

theorem countP_key_eq_zero_of_get_none {α : Type} {m : JSMap α} {k : String}
    (h : jsMapGet m k = none) : m.countP (fun p => p.1 = k) = 0 := by
  rw [List.countP_eq_zero]
  intro p hp
  simpa using (jsMapGet_eq_none_iff.mp h) p hp

theorem countP_key_jsMapSet_of_has {α : Type} {m : JSMap α} {k : String} (v : α)
    (h : jsMapHas m k = true) :
    (jsMapSet m k v).countP (fun p => p.1 = k) = m.countP (fun p => p.1 = k) := by
  unfold jsMapSet
  rw [if_pos h, List.countP_map]
  apply List.countP_congr
  intro p _
  by_cases hp : p.1 = k <;> simp [hp, Function.comp]

theorem mem_foldl_jsMapDelete {α : Type} {ks : List String} {p : String × α} :
    ∀ m : JSMap α, p ∈ ks.foldl (fun acc k => jsMapDelete acc k) m → p ∈ m := by
  induction ks with
  | nil =>
    intro m h
    simpa using h
  | cons k rest ih =>
    intro m h
    exact List.mem_of_mem_filter (ih (jsMapDelete m k) h)

theorem mem_foldl_jsMapDelete_pairs {α : Type} {ds : List (String × α)}
    {p : String × α} :
    ∀ m : JSMap α, p ∈ ds.foldl (fun acc q => jsMapDelete acc q.1) m → p ∈ m := by
  induction ds with
  | nil =>
    intro m h
    simpa using h
  | cons q rest ih =>
    intro m h
    exact List.mem_of_mem_filter (ih (jsMapDelete m q.1) h)

/-! ## Frame lemmas: which store fields each maintenance operation leaves alone -/

theorem relationships_cleanup (s : AgentMemory) (now : Nat) :
    (s.cleanup now).relationships = s.relationships := by
  unfold AgentMemory.cleanup
  dsimp only
  split <;> rfl

theorem relationships_maybeCleanup (s : AgentMemory) (now : Nat) :
    (s.maybeCleanup now).relationships = s.relationships := by
  unfold AgentMemory.maybeCleanup
  split
  · exact relationships_cleanup s now
  · rfl

theorem relationships_storeMem (s : AgentMemory) (key : String) (data : MemData)
    (importance : Nat) (category : Option String) (mid : String) (now : Nat) :
    (s.storeMem key data importance category mid now).relationships =
      s.relationships := by
  unfold AgentMemory.storeMem
  dsimp only
  split <;> exact relationships_maybeCleanup _ now

theorem longTermMemory_cleanup (s : AgentMemory) (now : Nat) :
    (s.cleanup now).longTermMemory = s.longTermMemory := by
  unfold AgentMemory.cleanup
  dsimp only
  split <;> rfl

theorem longTermMemory_maybeCleanup (s : AgentMemory) (now : Nat) :
    (s.maybeCleanup now).longTermMemory = s.longTermMemory := by
  unfold AgentMemory.maybeCleanup
  split
  · exact longTermMemory_cleanup s now
  · rfl

theorem mem_shortTermMemory_cleanup {s : AgentMemory} {now : Nat}
    {q : String × Memory} (h : q ∈ (s.cleanup now).shortTermMemory) :
    q ∈ s.shortTermMemory := by
  unfold AgentMemory.cleanup at h
  dsimp only at h
  split at h
  · exact List.mem_of_mem_filter (mem_foldl_jsMapDelete_pairs _ h)
  · exact List.mem_of_mem_filter h

theorem mem_shortTermMemory_maybeCleanup {s : AgentMemory} {now : Nat}
    {q : String × Memory} (h : q ∈ (s.maybeCleanup now).shortTermMemory) :
    q ∈ s.shortTermMemory := by
  unfold AgentMemory.maybeCleanup at h
  split at h
  · exact mem_shortTermMemory_cleanup h
  · exact h

/-! ## C1: trust stays in [0,100] across any sequence of conversations -/

/-- Every tracked relationship has `trustLevel` within [0,100]. -/
def TrustInv (s : AgentMemory) : Prop :=
  ∀ q ∈ s.relationships, 0 ≤ q.2.trustLevel ∧ q.2.trustLevel ≤ 100

theorem trustLevel_relationshipAfterConversation (rel : Relationship)
    (conversation : Conversation) (h0 : 0 ≤ rel.trustLevel)
    (h1 : rel.trustLevel ≤ 100) :
    0 ≤ (relationshipAfterConversation rel conversation).trustLevel ∧
      (relationshipAfterConversation rel conversation).trustLevel ≤ 100 := by
  unfold relationshipAfterConversation
  dsimp only
  split_ifs <;>
    refine ⟨?_, ?_⟩ <;>
    first
      | exact le_min (by norm_num) (by linarith)
      | exact min_le_left _ _
      | exact le_max_left _ _
      | exact max_le (by norm_num) (by linarith)
      | exact h0
      | exact h1

theorem totalInteractions_relationshipAfterConversation (rel : Relationship)
    (conversation : Conversation) :
    (relationshipAfterConversation rel conversation).totalInteractions =
      rel.totalInteractions + 1 := by
  unfold relationshipAfterConversation
  dsimp only
  split_ifs <;> rfl

theorem trustLevel_freshRelationship (pn pid : String) (now : Nat) :
    0 ≤ (freshRelationship pn pid now).trustLevel ∧
      (freshRelationship pn pid now).trustLevel ≤ 100 := by
  constructor <;> norm_num [freshRelationship]

theorem trustInv_updateRelationship {s : AgentMemory} (p : Participant)
    (conversation : Conversation) (now : Nat) (h : TrustInv s) :
    TrustInv (s.updateRelationship p conversation now) := by
  intro q hq
  unfold AgentMemory.updateRelationship at hq
  dsimp only at hq
  set pn := participantKey p with hpn
  set fresh := freshRelationship pn p.id now with hfresh
  have freshBounds := trustLevel_freshRelationship pn p.id now
  by_cases hhas : jsMapHas s.relationships pn
  · rw [if_pos hhas] at hq
    rcases mem_jsMapSet hq with hmem | rfl
    · exact h q hmem
    · dsimp only
      cases hg : jsMapGet s.relationships pn with
      | some r =>
        rw [Option.getD_some]
        have hr := h _ (jsMapGet_eq_some_mem hg)
        exact trustLevel_relationshipAfterConversation r conversation hr.1 hr.2
      | none =>
        rw [Option.getD_none]
        exact trustLevel_relationshipAfterConversation fresh conversation
          freshBounds.1 freshBounds.2
  · rw [if_neg hhas] at hq
    rcases mem_jsMapSet hq with hmem | rfl
    · rcases mem_jsMapSet hmem with hmem' | rfl
      · exact h q hmem'
      · exact freshBounds
    · dsimp only
      rw [jsMapGet_set_self, Option.getD_some]
      exact trustLevel_relationshipAfterConversation fresh conversation
        freshBounds.1 freshBounds.2

theorem trustInv_of_relationships_eq {s s' : AgentMemory}
    (h : s'.relationships = s.relationships) (hs : TrustInv s) : TrustInv s' := by
  intro q hq
  exact hs q (h ▸ hq)

theorem trustInv_addConversation {s : AgentMemory} (p : Participant)
    (message type cid mid : String) (now : Nat) (h : TrustInv s) :
    TrustInv (s.addConversation p message type cid mid now) := by
  unfold AgentMemory.addConversation
  dsimp only
  split
  · apply trustInv_of_relationships_eq (relationships_storeMem _ _ _ _ _ _ _)
    exact trustInv_updateRelationship p _ now (fun q hq => h q hq)
  · exact trustInv_updateRelationship p _ now (fun q hq => h q hq)

/-- One external input to `addConversation`: the participant, the message, the
direction, the two generated ids and the `Date.now()` reading. -/
structure ConvInput where
  p : Participant
  message : String
  type : String
  cid : String
  mid : String
  now : Nat

/-- A whole session: fold `addConversation` over a list of inputs. -/
def runConversations (s : AgentMemory) (inputs : List ConvInput) : AgentMemory :=
  inputs.foldl
    (fun st i => st.addConversation i.p i.message i.type i.cid i.mid i.now) s

theorem trustInv_runConversations (s : AgentMemory) (inputs : List ConvInput)
    (h : TrustInv s) : TrustInv (runConversations s inputs) := by
  induction inputs generalizing s with
  | nil => simpa [runConversations] using h
  | cons i rest ih =>
    simp only [runConversations, List.foldl_cons]
    exact ih _ (trustInv_addConversation i.p i.message i.type i.cid i.mid i.now h)

/-- C1: for every participant and every sequence of `updateRelationship` calls
driven by `addConversation`, each relationship's `trustLevel` stays in
[0,100]. -/
theorem trustLevel_always_clamped (config : MemoryConfig) (start : Nat)
    (inputs : List ConvInput) :
    ∀ q ∈ (runConversations (AgentMemory.init config start) inputs).relationships,
      0 ≤ q.2.trustLevel ∧ q.2.trustLevel ≤ 100 := by
  apply trustInv_runConversations
  intro q hq
  simp [AgentMemory.init] at hq

/-! ## C6: first conversation with an unseen participant -/

theorem jsMapHas_of_get_some {α : Type} {m : JSMap α} {k : String} {v : α}
    (h : jsMapGet m k = some v) : jsMapHas m k = true :=
  jsMapHas_eq_true_iff.mpr ⟨(k, v), jsMapGet_eq_some_mem h, rfl⟩

theorem updateRelationship_first_contact {s : AgentMemory} (p : Participant)
    (conv : Conversation) (now : Nat)
    (h : jsMapGet s.relationships (participantKey p) = none) :
    ∃ r, jsMapGet (s.updateRelationship p conv now).relationships
          (participantKey p) = some r ∧
      r.totalInteractions = 1 ∧
      (s.updateRelationship p conv now).relationships.countP
          (fun q => q.1 = participantKey p) = 1 := by
  have hhas : jsMapHas s.relationships (participantKey p) = false :=
    jsMapHas_eq_false_iff.mpr (jsMapGet_eq_none_iff.mp h)
  unfold AgentMemory.updateRelationship
  dsimp only
  rw [if_neg (by simp [hhas])]
  simp only [jsMapGet_set_self, Option.getD_some]
  refine ⟨_, rfl, ?_, ?_⟩
  · rw [totalInteractions_relationshipAfterConversation]
    rfl
  · have hhasTrue : jsMapHas
        (jsMapSet s.relationships (participantKey p)
          (freshRelationship (participantKey p) p.id now)) (participantKey p) = true :=
      jsMapHas_of_get_some (jsMapGet_set_self _ _ _)
    rw [countP_key_jsMapSet_of_has _ hhasTrue]
    unfold jsMapSet
    rw [if_neg (by simp [hhas]), List.countP_append,
      countP_key_eq_zero_of_get_none h]
    simp

/-- C6: the first `addConversation` for an unseen participant name creates
exactly one relationship record under that name, with `totalInteractions = 1`. -/
theorem first_addConversation_creates_relationship (s : AgentMemory)
    (p : Participant) (message type cid mid : String) (now : Nat)
    (h : jsMapGet s.relationships (participantKey p) = none) :
    ∃ r, jsMapGet (s.addConversation p message type cid mid now).relationships
          (participantKey p) = some r ∧
      r.totalInteractions = 1 ∧
      (s.addConversation p message type cid mid now).relationships.countP
          (fun q => q.1 = participantKey p) = 1 := by
  unfold AgentMemory.addConversation
  dsimp only
  split
  · rw [relationships_storeMem]
    exact updateRelationship_first_contact p _ now h
  · exact updateRelationship_first_contact p _ now h

/-- C6 witness: a concrete first conversation. -/
theorem first_addConversation_creates_relationship_witness :
    let s0 := AgentMemory.init ⟨none, none, none⟩ 0
    let p0 : Participant := ⟨"Player", "player_1"⟩
    ∃ r, jsMapGet (s0.addConversation p0 "hi" "received" "c1" "m1" 5).relationships
          (participantKey p0) = some r ∧
      r.totalInteractions = 1 ∧
      (s0.addConversation p0 "hi" "received" "c1" "m1" 5).relationships.countP
          (fun q => q.1 = participantKey p0) = 1 :=
  first_addConversation_creates_relationship _ _ "hi" "received" "c1" "m1" 5
    (by decide)

/-! ## C10: retrieve without strengthening is pure -/

/-- C10: `retrieve(key, false)` returns the stored data and leaves the whole
store — both tiers and every record field — unchanged. -/
theorem retrieve_no_strengthen_pure (s : AgentMemory) (key : String) (now : Nat) :
    (s.retrieve key false now).2 = s ∧
    (∀ m, jsMapGet s.shortTermMemory key = some m →
      (s.retrieve key false now).1 = some m.data) ∧
    (jsMapGet s.shortTermMemory key = none →
      ∀ m, jsMapGet s.longTermMemory key = some m →
        (s.retrieve key false now).1 = some m.data) := by
  refine ⟨?_, ?_, ?_⟩
  · unfold AgentMemory.retrieve
    cases jsMapGet s.shortTermMemory key with
    | some m => rfl
    | none =>
      cases jsMapGet s.longTermMemory key with
      | some m => rfl
      | none => rfl
  · intro m hm
    unfold AgentMemory.retrieve
    rw [hm]
    rfl
  · intro hn m hm
    unfold AgentMemory.retrieve
    rw [hn, hm]
    rfl

/-- A one-record store used to witness the claims about concrete behaviour. -/
def memW : Memory :=
  { id := "m1", key := "a", data := MemData.raw "payload", category := "fact",
    importance := 3, timestamp := 0, accessCount := 4, lastAccessed := 0,
    strength := 1, emotionalWeight := 0, connections := [] }

/-- A store holding only `memW` in the short-term tier. -/
def storeW : AgentMemory :=
  { maxMemories := 200, maxConversations := 50, decayRate := 1/10,
    shortTermMemory := [("a", memW)], longTermMemory := [],
    conversations := [], relationships := [], facts := [],
    lastCleanupTime := 0, cleanupInterval := 60000 }

/-- C10 witness: retrieving `"a"` with `strengthenMemory = false` returns the
payload and returns the store unchanged. -/
theorem retrieve_no_strengthen_pure_witness :
    (storeW.retrieve "a" false 7).2 = storeW ∧
    (storeW.retrieve "a" false 7).1 = some (MemData.raw "payload") :=
  ⟨(retrieve_no_strengthen_pure storeW "a" 7).1,
   (retrieve_no_strengthen_pure storeW "a" 7).2.1 memW (by decide)⟩

/-! ## C3/C4 support: membership in the promoted fold, nodup keys -/

theorem mem_foldl_jsMapSetKey {l : List (String × Memory)} {p : String × Memory} :
    ∀ base : JSMap Memory,
      p ∈ l.foldl (fun m q => jsMapSet m q.2.key q.2) base →
      p ∈ base ∨ ∃ q ∈ l, p = (q.2.key, q.2) := by
  induction l with
  | nil =>
    intro base h
    exact Or.inl (by simpa using h)
  | cons q rest ih =>
    intro base h
    rcases ih (jsMapSet base q.2.key q.2) (by simpa using h) with h1 | ⟨r, hr, rfl⟩
    · rcases mem_jsMapSet h1 with h2 | rfl
      · exact Or.inl h2
      · exact Or.inr ⟨q, List.mem_cons_self _ _, rfl⟩
    · exact Or.inr ⟨r, List.mem_cons_of_mem _ hr, rfl⟩

theorem jsMapGet_foldl_setKey_of_not_mem {l : List (String × Memory)}
    {base : JSMap Memory} {k : String} (h : ∀ q ∈ l, q.2.key ≠ k) :
    jsMapGet (l.foldl (fun m q => jsMapSet m q.2.key q.2) base) k =
      jsMapGet base k := by
  induction l generalizing base with
  | nil => rfl
  | cons q rest ih =>
    rw [List.foldl_cons, ih (fun r hr => h r (List.mem_cons_of_mem _ hr)),
      jsMapGet_set_ne _ _ _ _ (Ne.symm (h q (List.mem_cons_self _ _)))]

theorem jsMapGet_foldl_setKey_of_mem {l : List (String × Memory)}
    {base : JSMap Memory} {q : String × Memory}
    (hnd : (l.map (fun r => r.2.key)).Nodup) (hq : q ∈ l) :
    jsMapGet (l.foldl (fun r m => jsMapSet r m.2.key m.2) base) q.2.key =
      some q.2 := by
  induction l generalizing base with
  | nil => simp at hq
  | cons r rest ih =>
    rw [List.foldl_cons]
    rcases List.mem_cons.mp hq with rfl | hq'
    · have hrest : ∀ t ∈ rest, t.2.key ≠ q.2.key := by
        intro t ht hc
        refine (List.nodup_cons.mp hnd).1 ?_
        have hmem : t.2.key ∈ rest.map (fun r => r.2.key) :=
          List.mem_map_of_mem _ ht
        rw [hc] at hmem
        simpa using hmem
      rw [jsMapGet_foldl_setKey_of_not_mem hrest, jsMapGet_set_self]
    · exact ih (List.nodup_cons.mp hnd).2 hq'

theorem eq_of_mem_nodupKeys {α : Type} {l : JSMap α}
    (hnd : (l.map Prod.fst).Nodup) {p q : String × α}
    (hp : p ∈ l) (hq : q ∈ l) (h : p.1 = q.1) : p = q := by
  induction l with
  | nil => simp at hp
  | cons r rest ih =>
    rcases List.mem_cons.mp hp with rfl | hp' <;>
      rcases List.mem_cons.mp hq with rfl | hq'
    · rfl
    · have h1 : q.1 ∈ rest.map Prod.fst := List.mem_map_of_mem Prod.fst hq'
      rw [← h] at h1
      exact absurd h1 (by simpa using (List.nodup_cons.mp hnd).1)
    · have h1 : p.1 ∈ rest.map Prod.fst := List.mem_map_of_mem Prod.fst hp'
      rw [h] at h1
      exact absurd h1 (by simpa using (List.nodup_cons.mp hnd).1)
    · exact ih (List.nodup_cons.mp hnd).2 hp' hq'

theorem decayMemory_strength_le {d : ℚ} (hd : 0 ≤ d) (m : Memory)
    (hm : 0 ≤ m.strength) : (decayMemory d m).strength ≤ m.strength :=
  max_le hm (by linarith)

theorem decayMemory_strength_nonneg (d : ℚ) (m : Memory) :
    0 ≤ (decayMemory d m).strength := le_max_left _ _

/-! ## C3: decay monotonicity under `update` -/

/-- C3: for `Δt ≥ 0` (and the store's non-negative decay rate), every record
still present after `update(Δt)` is the decayed image of a record that was
there before, its strength did not increase (given it was non-negative), and
it never drops below 0; long-term records are either untouched or are
promoted decayed short-term records. -/
theorem update_decay_monotonic (s : AgentMemory) (deltaTime : ℚ) (now : Nat)
    (hdt : 0 ≤ deltaTime) (hdr : 0 ≤ s.decayRate) :
    (∀ p ∈ (s.update deltaTime now).shortTermMemory,
      ∃ q ∈ s.shortTermMemory, p.1 = q.1 ∧
        p.2 = decayMemory (s.decayRate * (deltaTime / 60)) q.2 ∧
        (0 ≤ q.2.strength → p.2.strength ≤ q.2.strength) ∧ 0 ≤ p.2.strength) ∧
    (∀ p ∈ (s.update deltaTime now).longTermMemory,
      p ∈ s.longTermMemory ∨
      ∃ q ∈ s.shortTermMemory,
        p.2 = decayMemory (s.decayRate * (deltaTime / 60)) q.2 ∧
        (0 ≤ q.2.strength → p.2.strength ≤ q.2.strength) ∧ 0 ≤ p.2.strength) := by
  have hd : 0 ≤ s.decayRate * (deltaTime / 60) :=
    mul_nonneg hdr (div_nonneg hdt (by norm_num))
  constructor
  · intro p hp
    unfold AgentMemory.update at hp
    dsimp only at hp
    have hp2 := mem_shortTermMemory_maybeCleanup hp
    dsimp only at hp2
    have hp3 := List.mem_of_mem_filter hp2
    rcases List.mem_map.mp hp3 with ⟨q, hq, rfl⟩
    exact ⟨q, hq, rfl, rfl,
      fun h0 => decayMemory_strength_le hd q.2 h0,
      decayMemory_strength_nonneg _ _⟩
  · intro p hp
    unfold AgentMemory.update at hp
    dsimp only at hp
    rw [longTermMemory_maybeCleanup] at hp
    dsimp only at hp
    rcases mem_foldl_jsMapSetKey _ hp with h1 | ⟨r, hr, rfl⟩
    · exact Or.inl h1
    · right
      have hr2 := List.mem_of_mem_filter hr
      rcases List.mem_map.mp hr2 with ⟨q, hq, rfl⟩
      exact ⟨q, hq, rfl,
        fun h0 => decayMemory_strength_le hd q.2 h0,
        decayMemory_strength_nonneg _ _⟩

/-- C3 witness: the hypotheses hold and the conclusion evaluates on a concrete
store with `Δt = 60`. -/
theorem update_decay_monotonic_witness :
    (0 ≤ (60 : ℚ)) ∧ (0 ≤ storeW.decayRate) ∧
    (∀ p ∈ (storeW.update 60 0).shortTermMemory,
      ∃ q ∈ storeW.shortTermMemory, p.1 = q.1 ∧
        p.2 = decayMemory (storeW.decayRate * (60 / 60)) q.2 ∧
        (0 ≤ q.2.strength → p.2.strength ≤ q.2.strength) ∧ 0 ≤ p.2.strength) :=
  ⟨by norm_num, by decide,
   (update_decay_monotonic storeW 60 0 (by norm_num) (by decide)).1⟩

/-! ## C4: promotion to the long-term tier -/

/-- C4: a short-term record with `accessCount > 3` and `importance ≥ NORMAL`
is moved to the long-term tier by the next `update()`: afterwards the key is
absent from the short-term tier and bound in the long-term tier (to the
record with this round's decay applied). -/
theorem update_promotes_to_longterm (s : AgentMemory) (deltaTime : ℚ) (now : Nat)
    (k : String) (m : Memory)
    (hmem : (k, m) ∈ s.shortTermMemory)
    (hwf : ∀ p ∈ s.shortTermMemory, p.1 = p.2.key)
    (hnd : (s.shortTermMemory.map Prod.fst).Nodup)
    (hacc : 3 < m.accessCount) (himp : importanceNORMAL ≤ m.importance) :
    jsMapGet (s.update deltaTime now).shortTermMemory m.key = none ∧
    jsMapGet (s.update deltaTime now).longTermMemory m.key =
      some (decayMemory (s.decayRate * (deltaTime / 60)) m) := by
  have hpm : promotes (decayMemory (s.decayRate * (deltaTime / 60)) m) = true := by
    simp only [promotes, decayMemory, importanceNORMAL, Bool.and_eq_true,
      decide_eq_true_eq]
    exact ⟨hacc, himp⟩
  have hkm : k = m.key := hwf (k, m) hmem
  constructor
  · rw [jsMapGet_eq_none_iff]
    intro p hp
    unfold AgentMemory.update at hp
    dsimp only at hp
    have hp2 := mem_shortTermMemory_maybeCleanup hp
    dsimp only at hp2
    rcases List.mem_filter.mp hp2 with ⟨hp3, hnp⟩
    rcases List.mem_map.mp hp3 with ⟨q, hq, rfl⟩
    intro hk
    have hqk : q = (k, m) := eq_of_mem_nodupKeys hnd hq hmem (by
      show q.1 = k
      rw [hk, hkm])
    rw [hqk] at hnp
    simp only [decide_eq_true_eq] at hnp
    exact hnp hpm
  · unfold AgentMemory.update
    dsimp only
    rw [longTermMemory_maybeCleanup]
    dsimp only
    have hkeys : (s.shortTermMemory.map
        (fun q => (q.1, decayMemory (s.decayRate * (deltaTime / 60)) q.2))).map
          (fun r => r.2.key) = s.shortTermMemory.map Prod.fst := by
      rw [List.map_map]
      apply List.map_congr_left
      intro q hq
      exact (hwf q hq).symm
    have hsub : List.Sublist
        (((s.shortTermMemory.map
          (fun q => (q.1, decayMemory (s.decayRate * (deltaTime / 60)) q.2))).filter
            (fun q => promotes q.2)).map (fun r => r.2.key))
        ((s.shortTermMemory.map
          (fun q => (q.1, decayMemory (s.decayRate * (deltaTime / 60)) q.2))).map
            (fun r => r.2.key)) :=
      List.Sublist.map _ (List.filter_sublist _)
    have hnd2 := List.Nodup.sublist (hkeys ▸ hsub) hnd
    have hmem2 : ((k, m).1, decayMemory (s.decayRate * (deltaTime / 60)) (k, m).2) ∈
        (s.shortTermMemory.map
          (fun q => (q.1, decayMemory (s.decayRate * (deltaTime / 60)) q.2))).filter
            (fun q => promotes q.2) :=
      List.mem_filter.mpr ⟨List.mem_map_of_mem _ hmem, by simpa using hpm⟩
    exact jsMapGet_foldl_setKey_of_mem hnd2 hmem2

/-- C4 witness: `memW` (accessCount 4, importance 3) is promoted out of
`storeW`'s short-term tier by `update`. -/
theorem update_promotes_to_longterm_witness :
    (("a", memW) ∈ storeW.shortTermMemory) ∧
    (∀ p ∈ storeW.shortTermMemory, p.1 = p.2.key) ∧
    ((storeW.shortTermMemory.map Prod.fst).Nodup) ∧
    3 < memW.accessCount ∧ importanceNORMAL ≤ memW.importance ∧
    jsMapGet (storeW.update 60 0).shortTermMemory memW.key = none ∧
    jsMapGet (storeW.update 60 0).longTermMemory memW.key =
      some (decayMemory (storeW.decayRate * (60 / 60)) memW) :=
  ⟨by decide, by decide, by decide, by decide, by decide,
   (update_promotes_to_longterm storeW 60 0 "a" memW (by decide) (by decide)
     (by decide) (by decide) (by decide)).1,
   (update_promotes_to_longterm storeW 60 0 "a" memW (by decide) (by decide)
     (by decide) (by decide) (by decide)).2⟩

/-! ## C2: serialize/deserialize round-trip -/

theorem jsMapHas_append {α : Type} (a b : JSMap α) (k : String) :
    jsMapHas (a ++ b) k = (jsMapHas a k || jsMapHas b k) := by
  induction a with
  | nil => simp [jsMapHas]
  | cons q rest ih =>
    by_cases hq : q.1 = k <;> simp [jsMapHas, hq, ih]

theorem foldl_jsMapSet_append {α : Type} (l : JSMap α) :
    ∀ acc : JSMap α, (l.map Prod.fst).Nodup →
      (∀ p ∈ l, jsMapHas acc p.1 = false) →
      l.foldl (fun m q => jsMapSet m q.1 q.2) acc = acc ++ l := by
  induction l with
  | nil =>
    intro acc _ _
    simp
  | cons q rest ih =>
    intro acc hnd habs
    rw [List.foldl_cons]
    have h1 : jsMapHas acc q.1 = false := habs q (List.mem_cons_self _ _)
    have hset : jsMapSet acc q.1 q.2 = acc ++ [q] := by
      unfold jsMapSet
      rw [if_neg (by simp [h1])]
    have habs' : ∀ p ∈ rest, jsMapHas (acc ++ [q]) p.1 = false := by
      intro p hp
      have hpq : q.1 ≠ p.1 := by
        intro hc
        exact (List.nodup_cons.mp hnd).1 (hc ▸ List.mem_map_of_mem Prod.fst hp)
      have h2 : jsMapHas ([q] : JSMap α) p.1 = false := by
        simp [jsMapHas, hpq]
      rw [jsMapHas_append, habs p (List.mem_cons_of_mem q hp), h2]
      rfl
    rw [hset, ih (acc ++ [q]) (List.nodup_cons.mp hnd).2 habs', List.append_assoc]
    rfl

theorem newMapFromEntries_eq {α : Type} {l : JSMap α}
    (h : (l.map Prod.fst).Nodup) : newMapFromEntries l = l := by
  unfold newMapFromEntries
  rw [foldl_jsMapSet_append l [] h (fun p _ => rfl)]
  simp

/-- C2: `deserialize(serialize(store))` restores the conversation log, the
relationship map, the `facts` map and both memory tiers exactly, with Map
key-lookup semantics rebuilt from the flat entry lists by the Map
constructor. -/
theorem serialize_deserialize_roundtrip (s t : AgentMemory)
    (h1 : (s.shortTermMemory.map Prod.fst).Nodup)
    (h2 : (s.longTermMemory.map Prod.fst).Nodup)
    (h3 : (s.relationships.map Prod.fst).Nodup)
    (h4 : (s.facts.map Prod.fst).Nodup) :
    (t.deserialize s.serialize).shortTermMemory = s.shortTermMemory ∧
    (t.deserialize s.serialize).longTermMemory = s.longTermMemory ∧
    (t.deserialize s.serialize).conversations = s.conversations ∧
    (t.deserialize s.serialize).relationships = s.relationships ∧
    (t.deserialize s.serialize).facts = s.facts := by
  unfold AgentMemory.deserialize AgentMemory.serialize
  dsimp only
  rw [newMapFromEntries_eq h1, newMapFromEntries_eq h2, newMapFromEntries_eq h3,
    newMapFromEntries_eq h4]
  exact ⟨rfl, rfl, rfl, rfl, rfl⟩

/-- A concrete conversation record for witnesses. -/
def convW : Conversation :=
  { id := "c1", participant := "Player", participantId := "player_1",
    message := "hi", type := "received", timestamp := 5, importance := 3,
    sentiment := 0, topics := [] }

/-- A concrete relationship record for witnesses. -/
def relW : Relationship :=
  { name := "Player", id := "player_1", trustLevel := 50, familiarity := 1,
    lastInteraction := 5, totalInteractions := 1, sentimentHistory := [0],
    sharedTopics := [], notes := [] }

/-- A store with every serialized component non-empty. -/
def storeR : AgentMemory :=
  { maxMemories := 200, maxConversations := 50, decayRate := 1/10,
    shortTermMemory := [("a", memW)],
    longTermMemory := [("b", { memW with key := "b", importance := 4 })],
    conversations := [convW], relationships := [("Player", relW)],
    facts := [("f", "v")], lastCleanupTime := 0, cleanupInterval := 60000 }

/-- C2 witness: the round-trip through a fresh store restores `storeR`'s four
components. -/
theorem serialize_deserialize_roundtrip_witness :
    ((AgentMemory.init ⟨none, none, none⟩ 0).deserialize
        storeR.serialize).shortTermMemory = storeR.shortTermMemory ∧
    ((AgentMemory.init ⟨none, none, none⟩ 0).deserialize
        storeR.serialize).longTermMemory = storeR.longTermMemory ∧
    ((AgentMemory.init ⟨none, none, none⟩ 0).deserialize
        storeR.serialize).conversations = storeR.conversations ∧
    ((AgentMemory.init ⟨none, none, none⟩ 0).deserialize
        storeR.serialize).relationships = storeR.relationships ∧
    ((AgentMemory.init ⟨none, none, none⟩ 0).deserialize
        storeR.serialize).facts = storeR.facts :=
  serialize_deserialize_roundtrip storeR (AgentMemory.init ⟨none, none, none⟩ 0)
    (by decide) (by decide) (by decide) (by decide)

/-! ## C9: message importance formula -/

theorem foldl_count_includes (l : List String) (f : String → Bool) (n : Nat) :
    l.foldl (fun acc w => if f w then acc + 1 else acc) n = n + l.countP f := by
  induction l generalizing n with
  | nil => simp
  | cons w rest ih =>
    rw [List.foldl_cons, List.countP_cons]
    by_cases hw : f w <;> simp [hw, ih] <;> omega

/-- C9: the computed message importance is the NORMAL baseline plus one for
each satisfied length threshold (`> 100`, `> 200`), one per flagged keyword
contained in the lower-cased message, and one for a question mark, capped at
CRITICAL (5). -/
theorem calculateMessageImportance_formula (message : String) :
    calculateMessageImportance message =
      min importanceCRITICAL
        (importanceNORMAL
          + (if message.length > 100 then 1 else 0)
          + (if message.length > 200 then 1 else 0)
          + importantWords.countP (fun w => jsIncludes (jsToLower message) w)
          + (if jsIncludes message "?" then 1 else 0)) := by
  unfold calculateMessageImportance
  dsimp only
  rw [foldl_count_includes]
  by_cases h1 : message.length > 100 <;> by_cases h2 : message.length > 200 <;>
    by_cases h3 : jsIncludes message "?" <;>
    simp [h1, h2, h3, importanceNORMAL, importanceCRITICAL] <;> omega

/-! ## C5: fallback guarantee of `generateResponse` -/

theorem mem_jsPickIndexed {l : List String} (h : 0 < l.length) (choice : Nat) :
    jsPickIndexed l choice ∈ l := by
  unfold jsPickIndexed
  have hlt : choice % l.length < l.length := Nat.mod_lt _ h
  rw [List.getD_eq_getElem l "" hlt]
  exact List.getElem_mem hlt

theorem jsPickIndexed_length_pos {l : List String} (choice : Nat)
    (hl : 0 < l.length) (h : ∀ x ∈ l, 0 < x.length) :
    0 < (jsPickIndexed l choice).length :=
  h _ (mem_jsPickIndexed hl choice)

theorem getRandomResponse_length_pos {l : List String} (choice : Nat)
    (h : ∀ x ∈ l, 0 < x.length) : 0 < (getRandomResponse l choice).length := by
  unfold getRandomResponse
  split
  case isTrue hl => exact jsPickIndexed_length_pos choice hl h
  case isFalse => decide

theorem greetingPool_length_pos (name : String) :
    ∀ x ∈ greetingPool name, 0 < x.length := by
  intro x hx
  simp only [greetingPool, List.mem_cons, List.not_mem_nil, or_false] at hx
  rcases hx with rfl | rfl | rfl
  · rw [String.length_append, String.length_append]
    have h17 : 0 < ("Hello there! I\x27m " : String).length := by decide
    omega
  · decide
  · decide

theorem goodbyePool_length_pos : ∀ x ∈ goodbyePool, 0 < x.length := by decide

theorem confusedPool_length_pos : ∀ x ∈ confusedPool, 0 < x.length := by decide

theorem busyPool_length_pos : ∀ x ∈ busyPool, 0 < x.length := by decide

theorem defaultPool_length_pos : ∀ x ∈ defaultPool, 0 < x.length := by decide

theorem scholarlyPool_length_pos : ∀ x ∈ scholarlyPool, 0 < x.length := by decide

theorem friendlyPool_length_pos : ∀ x ∈ friendlyPool, 0 < x.length := by decide

theorem suspiciousPool_length_pos : ∀ x ∈ suspiciousPool, 0 < x.length := by
  decide

theorem helpfulPool_length_pos : ∀ x ∈ helpfulPool, 0 < x.length := by decide

theorem personalityBase_length_pos (a : AIAgent) :
    ∀ x ∈ ((if a.personality.scholarly then scholarlyPool else []) ++
           (if a.personality.friendly then friendlyPool else []) ++
           (if a.personality.suspicious then suspiciousPool else []) ++
           (if a.personality.helpful then helpfulPool else [])),
      0 < x.length := by
  intro x hx
  rcases List.mem_append.mp hx with hx1 | hx1
  · rcases List.mem_append.mp hx1 with hx2 | hx2
    · rcases List.mem_append.mp hx2 with hx3 | hx3
      · split at hx3
        · exact scholarlyPool_length_pos x hx3
        · simp at hx3
      · split at hx3
        · exact friendlyPool_length_pos x hx3
        · simp at hx3
    · split at hx2
      · exact suspiciousPool_length_pos x hx2
      · simp at hx2
  · split at hx1
    · exact helpfulPool_length_pos x hx1
    · simp at hx1

theorem generatePersonalityResponse_length_pos (a : AIAgent) (choice : Nat) :
    0 < (generatePersonalityResponse a choice).length := by
  unfold generatePersonalityResponse
  dsimp only
  set base := (if a.personality.scholarly then scholarlyPool else []) ++
    (if a.personality.friendly then friendlyPool else []) ++
    (if a.personality.suspicious then suspiciousPool else []) ++
    (if a.personality.helpful then helpfulPool else []) with hbase
  by_cases h0 : base.length = 0
  · rw [if_pos h0]
    apply jsPickIndexed_length_pos
    · rw [List.length_append, h0]
      decide
    · intro x hx
      rcases List.mem_append.mp hx with hx | hx
      · exact personalityBase_length_pos a x (hbase ▸ hx)
      · exact defaultPool_length_pos x hx
  · rw [if_neg h0]
    exact jsPickIndexed_length_pos choice (Nat.pos_of_ne_zero h0)
      (fun x hx => personalityBase_length_pos a x (hbase ▸ hx))

theorem generateFallbackResponse_length_pos (a : AIAgent) (message : String)
    (busyRoll : Bool) (choice : Nat) :
    0 < (generateFallbackResponse a message busyRoll choice).length := by
  unfold generateFallbackResponse
  dsimp only
  split_ifs
  · exact getRandomResponse_length_pos choice (greetingPool_length_pos a.name)
  · exact getRandomResponse_length_pos choice goodbyePool_length_pos
  · exact getRandomResponse_length_pos choice confusedPool_length_pos
  · exact getRandomResponse_length_pos choice busyPool_length_pos
  · exact generatePersonalityResponse_length_pos a choice

/-- C5: with no API endpoint/credential configured, `generateResponse` always
takes the deterministic fallback path and returns a non-empty string; no
failure is surfaced. -/
theorem generateResponse_fallback_guarantee (a : AIAgent) (message : String)
    (apiOutcome : Except String String) (busyRoll : Bool) (choice : Nat)
    (hcfg : a.apiEndpoint = none ∨ a.apiKey = none) :
    generateResponse a message apiOutcome busyRoll choice =
      generateFallbackResponse a message busyRoll choice ∧
    0 < (generateResponse a message apiOutcome busyRoll choice).length := by
  have heq : generateResponse a message apiOutcome busyRoll choice =
      generateFallbackResponse a message busyRoll choice := by
    unfold generateResponse
    rcases hcfg with h | h
    · rw [h]
    · rw [h]
      cases a.apiEndpoint <;> rfl
  exact ⟨heq,
    heq ▸ generateFallbackResponse_length_pos a message busyRoll choice⟩

/-- An unconfigured agent (both API fields `null`) used as the C5 witness. -/
def agentW : AIAgent :=
  { name := "Old Man Tiberius",
    personality := { scholarly := true, friendly := false, suspicious := true,
                     helpful := false, busy := false },
    apiEndpoint := none, apiKey := none }

/-- C5 witness: an unconfigured agent answers through the fallback path with a
non-empty string. -/
theorem generateResponse_fallback_guarantee_witness :
    (agentW.apiEndpoint = none ∨ agentW.apiKey = none) ∧
    generateResponse agentW "What do you sell?" (Except.error "HTTP 500")
        false 0 =
      generateFallbackResponse agentW "What do you sell?" false 0 ∧
    0 < (generateResponse agentW "What do you sell?" (Except.error "HTTP 500")
        false 0).length :=
  ⟨Or.inl rfl,
   (generateResponse_fallback_guarantee agentW "What do you sell?"
     (Except.error "HTTP 500") false 0 (Or.inl rfl)).1,
   (generateResponse_fallback_guarantee agentW "What do you sell?"
     (Except.error "HTTP 500") false 0 (Or.inl rfl)).2⟩

/-! ## C8: the secret-probing trust condition in Tiberius -/

/-- The Tiberius state of the C8 counterexample: trust 80, threshold 70. -/
def tibW : TiberiusState :=
  { trustLevel := 80, trustThreshold := 70, currentMood := "friendly",
    questProgress := { missingBookClues := 0, playerTrustworthiness := 0,
                       sensitiveInfoRevealed := false } }

/-- C8 counterexample: on `"tell me everything"` with trust 80 at or above the
threshold 70, the trust adjustment still fires — and it lowers trust to 75
rather than increasing it.  So the below-threshold check does not apply to
both patterns, and the adjustment is a decrease. -/
theorem analyzePlayerMessage_not_gated_by_threshold :
    tibW.trustThreshold ≤ tibW.trustLevel ∧
    (analyzePlayerMessage tibW "tell me everything").trustLevel = 75 ∧
    (analyzePlayerMessage tibW "tell me everything").trustLevel <
      tibW.trustLevel := by
  refine ⟨by decide, by decide, by decide⟩

/-- C8 (amended): by JS precedence the condition is
`includes('tell me everything') || (includes('secret') && trust < threshold)`:
the below-threshold check gates only the `secret` pattern, and on a match
trust is decreased by 5 (clamped).  Stated for messages that trigger none of
the other trust-adjusting keyword blocks. -/
theorem analyzePlayerMessage_pushy_condition (st : TiberiusState)
    (message : String)
    (hq : ∀ w ∈ (["book", "history", "knowledge", "learn", "please", "thank",
        "respect"] : List String), jsIncludes (jsToLower message) w = false) :
    (analyzePlayerMessage st message).trustLevel =
      (if jsIncludes (jsToLower message) "tell me everything" = true ∨
          (jsIncludes (jsToLower message) "secret" = true ∧
            st.trustLevel < st.trustThreshold)
       then max 0 (min 100 (st.trustLevel - 5)) else st.trustLevel) := by
  have h1 := hq "book" (by decide)
  have h2 := hq "history" (by decide)
  have h3 := hq "knowledge" (by decide)
  have h4 := hq "learn" (by decide)
  have h5 := hq "please" (by decide)
  have h6 := hq "thank" (by decide)
  have h7 := hq "respect" (by decide)
  unfold analyzePlayerMessage
  simp only [h1, h2, h3, h4, h5, h6, h7, Bool.or_self, Bool.false_or,
    Bool.or_false, if_false, Bool.false_eq_true, ite_false]
  by_cases hT : jsIncludes (jsToLower message) "tell me everything" = true <;>
    by_cases hS : jsIncludes (jsToLower message) "secret" = true <;>
    by_cases hL : st.trustLevel < st.trustThreshold <;>
    simp only [hT, hS, hL, Bool.true_or, Bool.or_true, Bool.false_or,
      Bool.true_and, Bool.and_true, Bool.false_and, Bool.and_false,
      Bool.or_false, decide_True, decide_False, if_true, if_false,
      true_or, or_true, false_or, true_and, and_true, false_and, and_false,
      or_false, ite_true, ite_false, adjustTrust] <;>
    split <;>
    simp [sub_eq_add_neg]

/-! ## C7: cleanup capacity eviction -/

theorem foldl_jsMapDelete_eq_filter {α : Type} (ds : List (String × α)) :
    ∀ m : JSMap α, ds.foldl (fun acc q => jsMapDelete acc q.1) m =
      m.filter (fun p => ¬ p.1 ∈ ds.map Prod.fst) := by
  induction ds with
  | nil =>
    intro m
    simp
  | cons d rest ih =>
    intro m
    rw [List.foldl_cons, ih (jsMapDelete m d.1)]
    unfold jsMapDelete
    rw [List.filter_filter]
    apply List.filter_congr
    intro p _
    by_cases h1 : p.1 = d.1 <;> by_cases h2 : p.1 ∈ rest.map Prod.fst <;>
      simp [h1, h2]

theorem length_filter_key_not_add {α : Type} (ks : List String) (l : JSMap α) :
    (l.filter (fun p => p.1 ∈ ks)).length +
      (l.filter (fun p => ¬ p.1 ∈ ks)).length = l.length := by
  induction l with
  | nil => rfl
  | cons a rest ih =>
    rw [List.filter_cons, List.filter_cons]
    by_cases h : a.1 ∈ ks
    · rw [if_pos (by simpa using h), if_neg (by simpa using h), List.length_cons,
        List.length_cons]
      omega
    · rw [if_neg (by simpa using h), if_pos (by simpa using h), List.length_cons,
        List.length_cons]
      omega

theorem length_le_length_filter_keys {α : Type} {ks : List String} {l : JSMap α}
    (hnd : ks.Nodup) (hsub : ∀ k ∈ ks, k ∈ l.map Prod.fst) :
    ks.length ≤ (l.filter (fun p => p.1 ∈ ks)).length := by
  have h1 : ks ⊆ (l.filter (fun p => p.1 ∈ ks)).map Prod.fst := by
    intro k hk
    rcases List.mem_map.mp (hsub k hk) with ⟨p, hp, rfl⟩
    exact List.mem_map_of_mem Prod.fst (List.mem_filter.mpr ⟨hp, by simpa using hk⟩)
  calc ks.length ≤ ((l.filter (fun p => p.1 ∈ ks)).map Prod.fst).length :=
        (hnd.subperm h1).length_le
    _ = (l.filter (fun p => p.1 ∈ ks)).length := by rw [List.length_map]

/-- C7 (amended): `cleanup` leaves the short-term tier at or under
`maxMemories`; it first drops every record with `strength < 0.1` regardless of
its score, and the capacity pass then evicts lowest-scoring survivors first:
every capacity-evicted record scores no higher than any retained one. -/
theorem cleanup_capacity_eviction (s : AgentMemory) (now : Nat)
    (hnd : (s.shortTermMemory.map Prod.fst).Nodup) :
    (s.cleanup now).shortTermMemory.length ≤ s.maxMemories ∧
    (∀ p ∈ (s.cleanup now).shortTermMemory, ¬ (p.2.strength < 1/10)) ∧
    (∀ q ∈ capacityEvicted s now, ∀ p ∈ (s.cleanup now).shortTermMemory,
      calculateMemoryScore now q.2 ≤ calculateMemoryScore now p.2) := by
  unfold AgentMemory.cleanup capacityEvicted
  dsimp only
  set W := s.shortTermMemory.filter (fun p => ¬ (p.2.strength < 1/10)) with hW
  have hndW : (W.map Prod.fst).Nodup :=
    List.Nodup.sublist (List.Sublist.map _ (List.filter_sublist _)) hnd
  have hWmem : ∀ p ∈ W, ¬ (p.2.strength < 1/10) := by
    intro p hp
    have h := (List.mem_filter.mp hp).2
    simpa using h
  by_cases hgt : W.length > s.maxMemories
  · rw [if_pos hgt, if_pos hgt]
    dsimp only
    set sorted := W.insertionSort (evictScoreLe now) with hsortedDef
    set D := sorted.take (W.length - s.maxMemories) with hD
    rw [foldl_jsMapDelete_eq_filter]
    have hperm : List.Perm sorted W := List.perm_insertionSort _ W
    have hlen : sorted.length = W.length := hperm.length_eq
    have hndSorted : (sorted.map Prod.fst).Nodup :=
      ((hperm.map Prod.fst).nodup_iff).mpr hndW
    have hndD : (D.map Prod.fst).Nodup :=
      List.Nodup.sublist (List.Sublist.map _ (List.take_sublist _ _)) hndSorted
    have hDlen : D.length = W.length - s.maxMemories := by
      rw [hD, List.length_take, hlen]
      omega
    have hDsub : ∀ k ∈ D.map Prod.fst, k ∈ W.map Prod.fst := by
      intro k hk
      rcases List.mem_map.mp hk with ⟨d, hd, rfl⟩
      exact List.mem_map_of_mem Prod.fst
        (hperm.mem_iff.mp (List.mem_of_mem_take hd))
    have hcount : D.length ≤ (W.filter (fun p => p.1 ∈ D.map Prod.fst)).length := by
      have := length_le_length_filter_keys hndD hDsub
      rwa [List.length_map] at this
    have hsplit := length_filter_key_not_add (D.map Prod.fst) W
    refine ⟨?_, ?_, ?_⟩
    · omega
    · intro p hp
      exact hWmem p (List.mem_of_mem_filter hp)
    · intro q hq p hp
      rcases List.mem_filter.mp hp with ⟨hpW, hpNot⟩
      have hpNot' : ¬ p.1 ∈ D.map Prod.fst := by simpa using hpNot
      have hpSorted : p ∈ sorted := hperm.mem_iff.mpr hpW
      have hpDrop : p ∈ sorted.drop (W.length - s.maxMemories) := by
        rcases List.mem_append.mp
            ((List.take_append_drop (W.length - s.maxMemories) sorted) ▸
              hpSorted) with hpTake | hpDrop
        · exact absurd (List.mem_map_of_mem Prod.fst hpTake) hpNot'
        · exact hpDrop
      have hsort : List.Sorted (evictScoreLe now) sorted :=
        List.sorted_insertionSort _ W
      exact hsort.rel_of_mem_take_of_mem_drop hq hpDrop
  · rw [if_neg hgt, if_neg hgt]
    dsimp only
    exact ⟨by omega, hWmem, fun q hq => absurd hq (List.not_mem_nil q)⟩

/-- A high-score record whose strength is nevertheless below the 0.1 removal
threshold (score `5 * 1/20 * (1 + 1) = 1/2` at `now7`). -/
def memA7 : Memory :=
  { id := "mA", key := "a", data := MemData.raw "A", category := "fact",
    importance := 5, timestamp := 604800000, accessCount := 10,
    lastAccessed := 0, strength := 1/20, emotionalWeight := 0, connections := [] }

/-- A low-score record with healthy strength (score `0` at `now7`: one week
old, never accessed). -/
def memB7 : Memory :=
  { id := "mB", key := "b", data := MemData.raw "B", category := "fact",
    importance := 1, timestamp := 0, accessCount := 0,
    lastAccessed := 0, strength := 1/2, emotionalWeight := 0, connections := [] }

/-- `Date.now()` for the C7 counterexample: one week after epoch. -/
def now7 : Nat := 604800000

/-- A store over capacity (`maxMemories = 1`, two short-term records). -/
def store7 : AgentMemory :=
  { maxMemories := 1, maxConversations := 50, decayRate := 1/10,
    shortTermMemory := [("a", memA7), ("b", memB7)], longTermMemory := [],
    conversations := [], relationships := [], facts := [],
    lastCleanupTime := 0, cleanupInterval := 60000 }

/-- C7 counterexample: `store7` exceeds capacity, `memA7` scores strictly
higher than `memB7`, yet `cleanup` retains only `memB7` — the retained records
are not those with the highest relevance score, because the `strength < 0.1`
pass removes `memA7` first. -/
theorem cleanup_not_purely_score_based :
    store7.shortTermMemory.length > store7.maxMemories ∧
    calculateMemoryScore now7 memB7 < calculateMemoryScore now7 memA7 ∧
    (store7.cleanup now7).shortTermMemory = [("b", memB7)] :=
  ⟨by decide, by decide, by decide⟩

/-- C7 witness: the amended statement evaluates on `store7`. -/
theorem cleanup_capacity_eviction_witness :
    ((store7.shortTermMemory.map Prod.fst).Nodup) ∧
    (store7.cleanup now7).shortTermMemory.length ≤ store7.maxMemories ∧
    (∀ p ∈ (store7.cleanup now7).shortTermMemory, ¬ (p.2.strength < 1/10)) ∧
    (∀ q ∈ capacityEvicted store7 now7,
      ∀ p ∈ (store7.cleanup now7).shortTermMemory,
        calculateMemoryScore now7 q.2 ≤ calculateMemoryScore now7 p.2) :=
  ⟨by decide,
   (cleanup_capacity_eviction store7 now7 (by decide)).1,
   (cleanup_capacity_eviction store7 now7 (by decide)).2.1,
   (cleanup_capacity_eviction store7 now7 (by decide)).2.2⟩

/-- C1 witness: after one concrete conversation the tracked relationship is
`relW`, whose trust level is inside [0,100]. -/
theorem trustLevel_always_clamped_witness :
    0 ≤ relW.trustLevel ∧ relW.trustLevel ≤ 100 ∧
    ("Player", relW) ∈ (runConversations (AgentMemory.init ⟨none, none, none⟩ 0)
        [⟨⟨"Player", "player_1"⟩, "hi", "received", "c1", "m1", 5⟩]).relationships :=
  ⟨(trustLevel_always_clamped ⟨none, none, none⟩ 0
      [⟨⟨"Player", "player_1"⟩, "hi", "received", "c1", "m1", 5⟩]
      ("Player", relW) (by decide)).1,
   (trustLevel_always_clamped ⟨none, none, none⟩ 0
      [⟨⟨"Player", "player_1"⟩, "hi", "received", "c1", "m1", 5⟩]
      ("Player", relW) (by decide)).2,
   by decide⟩

/-- The Tiberius state of the C8 witness: trust 50, below the threshold 70. -/
def tib50 : TiberiusState :=
  { trustLevel := 50, trustThreshold := 70, currentMood := "neutral",
    questProgress := { missingBookClues := 0, playerTrustworthiness := 0,
                       sensitiveInfoRevealed := false } }

/-- C8 witness: a message containing only the `secret` pattern, sent below the
threshold, takes the adjusted branch of the amended condition. -/
theorem analyzePlayerMessage_pushy_condition_witness :
    (∀ w ∈ (["book", "history", "knowledge", "learn", "please", "thank",
        "respect"] : List String),
      jsIncludes (jsToLower "any secret?") w = false) ∧
    (analyzePlayerMessage tib50 "any secret?").trustLevel =
      (if jsIncludes (jsToLower "any secret?") "tell me everything" = true ∨
          (jsIncludes (jsToLower "any secret?") "secret" = true ∧
            tib50.trustLevel < tib50.trustThreshold)
       then max 0 (min 100 (tib50.trustLevel - 5)) else tib50.trustLevel) :=
  ⟨by decide,
   analyzePlayerMessage_pushy_condition tib50 "any secret?" (by decide)⟩

example : jsIncludes "tell me everything" "everything" = true := by decide
example : jsIncludes "tell me everything" "secret" = false := by decide
example : jsToLower "Hello There" = "hello there" := by decide
example : calculateMessageImportance "Is there a secret?" = 5 := by decide
example : analyzeSentiment "thank you, great!" = 1/5 := by decide
example : extractTopics "a book about history" = ["history", "books"] := by decide
